import Mathlib

/-!
# Verification of the remote-mcp-proxy configuration scripts

This file gives a shallow embedding of the two Python scripts of the
repository, `scripts/convert-config.py` and `scripts/generate-dockerfile.py`,
and proves properties of the embedded definitions.

Modelling conventions:
* JSON documents are modelled by the inductive type `Json`; Python `dict`s
  (which preserve insertion order and have unique keys) are modelled as
  association lists `List (String × Json)`.
* The filesystem and the `npm root -g` subprocess call are abstracted into an
  environment record `NpmEnv`; `npmRoot = none` models a failing root query
  (non-zero exit or missing executable, which raises inside the `try` block).
* Python string primitives used by the scripts (`startswith` on a one-character
  prefix, `os.path.basename` / `split('/')[-1]`, `str.strip`, `str.replace`,
  substring containment, `os.path.join`) are re-implemented over `List Char`
  so that every definition evaluates by kernel reduction.
* Code that would raise an uncaught Python exception (a server table or entry
  that is not an object, or an `args` value that is not an array of strings)
  is modelled with `Except String`; `.error` marks an aborted run.  The
  scripts are only ever run on documents where these values are well typed.
* `print` diagnostics are modelled as a returned list of message strings; the
  messages carry the identifying text of the source format strings.
-/

/-- JSON values, as produced by `json.load`.  Numbers are modelled as
integers, which covers every configuration the scripts consume. -/
inductive Json where
  | null : Json
  | bool : Bool → Json
  | num : Int → Json
  | str : String → Json
  | arr : List Json → Json
  | obj : List (String × Json) → Json

/-- `d.get(k)` on a Python dict modelled as an association list:
first binding wins (keys are unique in a dict). -/
def getKey (kvs : List (String × Json)) (k : String) : Option Json :=
  match kvs with
  | [] => none
  | (k', v) :: rest => if k' == k then some v else getKey rest k

/-- `d[k] = v` on a Python dict: replace the binding in place if the key is
present, append it otherwise. -/
def setKey (kvs : List (String × Json)) (k : String) (v : Json) :
    List (String × Json) :=
  match kvs with
  | [] => [(k, v)]
  | (k', v') :: rest =>
    if k' == k then (k, v) :: rest else (k', v') :: setKey rest k v

/-- Python `x == s` where `s` is a string literal and `x` an arbitrary JSON
value: true exactly for the equal string. -/
def isStrEq (j : Json) (s : String) : Bool :=
  match j with
  | .str t => t == s
  | _ => false

/-- Python truthiness of a JSON value (`if args:`). -/
def jsonTruthy : Json → Bool
  | .null => false
  | .bool b => b
  | .num n => n != 0
  | .str s => !(s == "")
  | .arr xs => !xs.isEmpty
  | .obj kvs => !kvs.isEmpty

/-- Python `s.startswith(c)` for a one-character prefix `c`. -/
def firstCharIs (s : String) (c : Char) : Bool :=
  match s.data with
  | [] => false
  | d :: _ => d == c

/-- Python `s.endswith('/')`, used by `os.path.join`. -/
def lastCharIs (s : String) (c : Char) : Bool :=
  match s.data.getLast? with
  | none => false
  | some d => d == c

/-- `os.path.join(a, b)` for POSIX paths: an absolute second component
replaces the first, otherwise the two are joined with a single `/`. -/
def joinPath (a b : String) : String :=
  if firstCharIs b '/' then b
  else if (a == "") || lastCharIs a '/' then a ++ b
  else a ++ "/" ++ b

/-- Characters of the segment after the last `/`; the accumulator holds the
characters of the current segment. -/
def lastSegChars (acc : List Char) : List Char → List Char
  | [] => acc
  | c :: rest =>
    if c == '/' then lastSegChars [] rest else lastSegChars (acc ++ [c]) rest

/-- `os.path.basename(s)`, equally `s.split('/')[-1]`: the segment of `s`
after its last `/`. -/
def lastSeg (s : String) : String :=
  String.mk (lastSegChars [] s.data)

/-- Python `s.strip()` restricted to whitespace characters. -/
def pyStrip (s : String) : String :=
  String.mk
    (((s.data.dropWhile Char.isWhitespace).reverse.dropWhile
        Char.isWhitespace).reverse)

/-- Extract the elements of a JSON array of strings; any other shape of an
`args` value makes the script raise, modelled as `.error`. -/
def asStrings : List Json → Except String (List String)
  | [] => .ok []
  | .str s :: rest =>
    match asStrings rest with
    | .ok l => .ok (s :: l)
    | .error e => .error e
  | _ :: _ => .error "TypeError: args element is not a string"

/-- `args` value of a server entry as a list of tokens. -/
def argStrings : Json → Except String (List String)
  | .arr xs => asStrings xs
  | _ => .error "TypeError: args is not an array"

/-- The argument-classification loop of `convert_npx_to_binary`
(`scripts/convert-config.py`, lines 72–81), scanning left to right with the
current `package_name` as state: `-y` is skipped; a token beginning with `@`,
or beginning with no `-` while no package is claimed yet, is claimed as the
package name (a later `@`-token overwrites an earlier claim); every other
token is appended to `remaining_args`. -/
def classifyNpxArgs (pn : Option String) : List String → Option String × List String
  | [] => (pn, [])
  | arg :: rest =>
    if arg == "-y" then classifyNpxArgs pn rest
    else if firstCharIs arg '@' || (!firstCharIs arg '-' && pn.isNone) then
      if !firstCharIs arg '-' then classifyNpxArgs (some arg) rest
      else
        let r := classifyNpxArgs pn rest
        (r.1, arg :: r.2)
    else
      let r := classifyNpxArgs pn rest
      (r.1, arg :: r.2)

/-- External collaborators of `find_binary_for_package`: the `npm root -g`
query (`none` models a raising query), `os.path.exists`, and `json.load` on a
file (`none` models a file whose content fails to parse). -/
structure NpmEnv where
  npmRoot : Option String
  pathExists : String → Bool
  readJson : String → Option Json

/-- `find_binary_for_package` (`scripts/convert-config.py`, lines 9–52).
Returns the discovered binary name (or `none`) together with the printed
diagnostics.  All failures — root-query error, missing package directory,
missing or unparsable `package.json`, a manifest that is not an object, and a
missing, empty or unrecognised `bin` field — yield `none` plus a message. -/
def find_binary_for_package (env : NpmEnv) (package_name : String) :
    Option String × List String :=
  match env.npmRoot with
  | none => (none, ["Error finding binary for " ++ package_name])
  | some out =>
    let npm_global_root := pyStrip out
    let package_dir := joinPath npm_global_root package_name
    if !env.pathExists package_dir then
      (none, ["Package directory not found: " ++ package_dir])
    else
      let package_json_path := joinPath package_dir "package.json"
      if !env.pathExists package_json_path then
        (none, ["package.json not found: " ++ package_json_path])
      else
        match env.readJson package_json_path with
        | some (Json.obj package_data) =>
          let bin_data := (getKey package_data "bin").getD (Json.obj [])
          match bin_data with
          | Json.str _ =>
            let binary_name := lastSeg package_name
            (some (if firstCharIs binary_name '@' then lastSeg binary_name
                   else binary_name), [])
          | Json.obj bin_list =>
            match bin_list with
            | (k, _) :: _ => (some k, [])
            | [] => (none, ["No binary found in package.json for " ++ package_name])
          | _ => (none, ["No binary found in package.json for " ++ package_name])
        | some _ => (none, ["Error finding binary for " ++ package_name])
        | none => (none, ["Error finding binary for " ++ package_name])

/-- The per-entry body of the loop of `convert_npx_to_binary`
(`scripts/convert-config.py`, lines 62–94): an entry whose command is `npx`
with a truthy argument list has its arguments classified; when a package name
is claimed and truthy (`if package_name:` at line 83, which is false both for
`None` and for the empty string), its binary is resolved and on success
`command`/`args` are overwritten; in every other case the entry is returned
unchanged, silently so when no truthy package name was claimed. -/
def convertEntry (env : NpmEnv) (server_name : String)
    (server_config : List (String × Json)) :
    Except String (List (String × Json) × List String) :=
  let command := (getKey server_config "command").getD (Json.str "")
  let argsJ := (getKey server_config "args").getD (Json.arr [])
  if isStrEq command "npx" && jsonTruthy argsJ then
    match argStrings argsJ with
    | .error e => .error e
    | .ok args =>
      match classifyNpxArgs none args with
      | (some package_name, remaining_args) =>
        if package_name == "" then .ok (server_config, [])
        else
        match find_binary_for_package env package_name with
        | (some binary_name, logs) =>
          .ok (setKey (setKey server_config "command" (Json.str binary_name))
                 "args" (Json.arr (remaining_args.map Json.str)),
               logs ++ ["Converted " ++ server_name ++ ": npx " ++
                        package_name ++ " -> " ++ binary_name])
        | (none, logs) =>
          .ok (server_config,
               logs ++ ["Warning: Could not find binary for " ++ package_name ++
                        ", keeping as npx"])
      | (none, _) => .ok (server_config, [])
  else .ok (server_config, [])

/-- The loop of `convert_npx_to_binary` over the `mcpServers` table, in
declaration order; a server value that is not an object raises. -/
def convertServers (env : NpmEnv) :
    List (String × Json) → Except String (List (String × Json) × List String)
  | [] => .ok ([], [])
  | (server_name, sj) :: rest =>
    match sj with
    | Json.obj server_config =>
      match convertEntry env server_name server_config with
      | .error e => .error e
      | .ok (e, logs) =>
        match convertServers env rest with
        | .error e' => .error e'
        | .ok (restOut, restLogs) =>
          .ok ((server_name, Json.obj e) :: restOut, logs ++ restLogs)
    | _ => .error "AttributeError: server entry is not an object"

/-- `convert_npx_to_binary` (`scripts/convert-config.py`, lines 54–96) on a
top-level JSON object: an absent `mcpServers` key returns the document
unchanged; otherwise the output document holds the single key `mcpServers`
with every entry rewritten by `convertEntry`. -/
def convert_npx_to_binary (env : NpmEnv) (config : List (String × Json)) :
    Except String (List (String × Json) × List String) :=
  match getKey config "mcpServers" with
  | none => .ok (config, [])
  | some (Json.obj servers) =>
    match convertServers env servers with
    | .error e => .error e
    | .ok (out, logs) => .ok ([("mcpServers", Json.obj out)], logs)
  | some _ => .error "AttributeError: mcpServers is not an object"

/-- The deduplicated package sets of `extract_packages_from_config`
(`scripts/generate-dockerfile.py`, lines 9–13), one per ecosystem.  A Python
`set` is modelled as a duplicate-free list in insertion order; only its
membership and its sorted image are ever observed. -/
structure Packages where
  npm : List String
  pip : List String
  uv : List String

/-- The empty package sets. -/
def emptyPackages : Packages := Packages.mk [] [] []

/-- `s.add(x)` on a Python set modelled as a duplicate-free list. -/
def setAdd (s : List String) (x : String) : List String :=
  if s.contains x then s else s ++ [x]

/-- The npx argument loop of `extract_packages_from_config`
(`scripts/generate-dockerfile.py`, lines 25–30): the first token that begins
with `@`, or begins with no `-` at an index greater than zero, is the package
name. -/
def npxPackageName (i : Nat) : List String → Option String
  | [] => none
  | arg :: rest =>
    if firstCharIs arg '@' || (!firstCharIs arg '-' && decide (0 < i)) then
      if !firstCharIs arg '-' then some arg
      else npxPackageName (i + 1) rest
    else npxPackageName (i + 1) rest

/-- The uvx argument loop (`scripts/generate-dockerfile.py`, lines 39–42):
the first token that begins with no `-` (the index test `i >= 0` of the
source is vacuous) is the package name. -/
def uvxPackageName (i : Nat) : List String → Option String
  | [] => none
  | arg :: rest =>
    if !firstCharIs arg '-' && decide (0 ≤ i) then some arg
    else uvxPackageName (i + 1) rest

/-- The python branch (`scripts/generate-dockerfile.py`, lines 50–51):
`args[1]` when `len(args) >= 2 and args[0] == '-m'`. -/
def pythonPackageName (args : List String) : Option String :=
  if decide (2 ≤ args.length) && (args.getD 0 "" == "-m") then
    some (args.getD 1 "")
  else none

/-- The per-entry body of the loop of `extract_packages_from_config`
(`scripts/generate-dockerfile.py`, lines 18–57): the `npx`/`uvx`/`python`
command patterns add to the npm/uv/pip set respectively; every other entry is
skipped with a diagnostic.  The npx and uvx branches guard the addition with
Python's `if package_name:` (lines 32 and 44), which is false both for `None`
and for the empty string; the python branch (lines 50–53) has no such
guard. -/
def extractEntry (server_name : String) (server_config : List (String × Json))
    (packages : Packages) : Except String (Packages × List String) :=
  let command := (getKey server_config "command").getD (Json.str "")
  let argsJ := (getKey server_config "args").getD (Json.arr [])
  if isStrEq command "npx" && jsonTruthy argsJ then
    match argStrings argsJ with
    | .error e => .error e
    | .ok args =>
      match npxPackageName 0 args with
      | some package_name =>
        if package_name == "" then .ok (packages, [])
        else
        .ok (Packages.mk (setAdd packages.npm package_name) packages.pip
               packages.uv,
             ["Found npm package for " ++ server_name ++ ": " ++ package_name])
      | none => .ok (packages, [])
  else if isStrEq command "uvx" && jsonTruthy argsJ then
    match argStrings argsJ with
    | .error e => .error e
    | .ok args =>
      match uvxPackageName 0 args with
      | some package_name =>
        if package_name == "" then .ok (packages, [])
        else
        .ok (Packages.mk packages.npm packages.pip
               (setAdd packages.uv package_name),
             ["Found uv package for " ++ server_name ++ ": " ++ package_name])
      | none => .ok (packages, [])
  else if isStrEq command "python" && jsonTruthy argsJ then
    match argStrings argsJ with
    | .error e => .error e
    | .ok args =>
      match pythonPackageName args with
      | some package_name =>
        .ok (Packages.mk packages.npm (setAdd packages.pip package_name)
               packages.uv,
             ["Found pip package for " ++ server_name ++ ": " ++ package_name])
      | none => .ok (packages, [])
  else .ok (packages, ["Skipping direct command for " ++ server_name])

/-- The loop of `extract_packages_from_config` over the `mcpServers` table,
threading the package sets in declaration order. -/
def extractServers :
    List (String × Json) → Packages → Except String (Packages × List String)
  | [], packages => .ok (packages, [])
  | (server_name, sj) :: rest, packages =>
    match sj with
    | Json.obj server_config =>
      match extractEntry server_name server_config packages with
      | .error e => .error e
      | .ok (packages', logs) =>
        match extractServers rest packages' with
        | .error e' => .error e'
        | .ok (packagesF, logs') => .ok (packagesF, logs ++ logs')
    | _ => .error "AttributeError: server entry is not an object"

/-- `extract_packages_from_config` (`scripts/generate-dockerfile.py`,
lines 7–59) on a top-level JSON object: an absent `mcpServers` key yields the
empty package sets. -/
def extract_packages_from_config (config : List (String × Json)) :
    Except String (Packages × List String) :=
  match getKey config "mcpServers" with
  | none => .ok (emptyPackages, [])
  | some (Json.obj servers) => extractServers servers emptyPackages
  | some _ => .error "AttributeError: mcpServers is not an object"

/-- Lexicographic comparison of character lists by code point, the order
Python uses to compare strings. -/
def charListLe : List Char → List Char → Bool
  | [], _ => true
  | _ :: _, [] => false
  | a :: as, b :: bs => if a == b then charListLe as bs else decide (a < b)

/-- Python string comparison `a <= b` (code-point lexicographic). -/
def pyLe (a b : String) : Bool :=
  charListLe a.data b.data

/-- Python `sorted` on a list of strings: lexicographic ascending by code
point. -/
def sortedStrings (l : List String) : List String :=
  List.insertionSort (fun a b => pyLe a b = true) l

/-- `generate_install_commands` (`scripts/generate-dockerfile.py`,
lines 61–83): one install line per package, ecosystem groups in the fixed
order npm, pip, uv, each group sorted by package name. -/
def generate_install_commands (packages : Packages) : List String :=
  (if packages.npm.isEmpty then []
   else (sortedStrings packages.npm).map
     (fun package => " && npm install -g " ++ package))
  ++ (if packages.pip.isEmpty then []
      else (sortedStrings packages.pip).map
        (fun package =>
          " && pip3 install --no-cache-dir --break-system-packages " ++ package))
  ++ (if packages.uv.isEmpty then []
      else (sortedStrings packages.uv).map
        (fun package => " && uv tool install " ++ package))

/-- Boolean prefix test on character lists (Python slice comparison). -/
def isPrefixL : List Char → List Char → Bool
  | [], _ => true
  | _ :: _, [] => false
  | a :: as, b :: bs => a == b && isPrefixL as bs

/-- Python substring containment `pat in s` on character lists. -/
def occursL (pat : List Char) : List Char → Bool
  | [] => pat.isEmpty
  | c :: rest => isPrefixL pat (c :: rest) || occursL pat rest

/-- One fuel-indexed step of Python `str.replace`: replace every
non-overlapping occurrence of `pat` by `rep`, scanning left to right.  The
fuel is the length of the scanned list, so it never runs out. -/
def replaceChars (pat rep : List Char) : Nat → List Char → List Char
  | _, [] => []
  | 0, l => l
  | fuel + 1, c :: rest =>
    if !pat.isEmpty && isPrefixL pat (c :: rest) then
      rep ++ replaceChars pat rep fuel (List.drop (pat.length - 1) rest)
    else c :: replaceChars pat rep fuel rest

/-- Python `s.replace(pat, rep)`. -/
def pyReplace (s pat rep : String) : String :=
  String.mk (replaceChars pat.data rep.data s.data.length s.data)

/-- The recognized placeholder substring of the Dockerfile template
(`scripts/generate-dockerfile.py`, line 117). -/
def installPlaceholder : String :=
  "\x7b\x7brange .MCPPackages\x7d\x7d && npm install -g \x7b\x7b.\x7d\x7d\x7b\x7bend\x7d\x7d"

/-- The separator `" \\\n".join(...)` of the generated install sequence. -/
def lineContinuationSep : String := " \\\n"

/-- The template loop of `main` (`scripts/generate-dockerfile.py`,
lines 115–125): a line containing the placeholder is substituted when the
install plan is non-empty and dropped when it is empty; other lines pass
through. -/
def renderTemplate (install_lines : List String) : List String → List String
  | [] => []
  | line :: rest =>
    if occursL installPlaceholder.data line.data then
      if !install_lines.isEmpty then
        pyReplace line installPlaceholder
            (String.intercalate lineContinuationSep install_lines)
          :: renderTemplate install_lines rest
      else renderTemplate install_lines rest
    else line :: renderTemplate install_lines rest

/-- Spec wording of the C1 argument classification: drop every `-y`, take as
package identifier the FIRST token that is namespace-prefixed or does not
begin with `-`, remove exactly that one token, and retain every other token
in order. -/
def claimClassify (args : List String) : Option String × List String :=
  let kept := args.filter (fun a => !(a == "-y"))
  match kept.findIdx? (fun a => firstCharIs a '@' || !firstCharIs a '-') with
  | some i => (kept[i]?, kept.eraseIdx i)
  | none => (none, kept)

/-- Amended wording of the C1 classification, matching the code: `-y` tokens
are dropped; every token beginning with `@` is claimed as the package
identifier and dropped, a later one overwriting an earlier claim; a token
beginning with no `-` is claimed and dropped only while no identifier is
claimed yet; every other token is retained in order. -/
def amendedClassify (pn : Option String) : List String → Option String × List String
  | [] => (pn, [])
  | arg :: rest =>
    if arg == "-y" then amendedClassify pn rest
    else if firstCharIs arg '@' then amendedClassify (some arg) rest
    else if !firstCharIs arg '-' && pn.isNone then amendedClassify (some arg) rest
    else
      let r := amendedClassify pn rest
      (r.1, arg :: r.2)

/-- Spec wording of the npm-style extraction rule: the first argument that is
namespace-prefixed, or is a non-flag argument at a position other than the
very first index. -/
def specNpmPackage (args : List String) : Option String :=
  (args.enum.find?
      (fun p => firstCharIs p.2 '@' || (!firstCharIs p.2 '-' && decide (0 < p.1)))).map
    Prod.snd

/-- Spec wording of the uv-style extraction rule: the first non-flag
argument at any position. -/
def specUvPackage (args : List String) : Option String :=
  args.find? (fun a => !firstCharIs a '-')

/-- Spec wording of the Python module-convention rule: the second argument
when the first is `-m` and a second one follows. -/
def specPipPackage : List String → Option String
  | a :: b :: _ => if a == "-m" then some b else none
  | _ => none

/-- Spec wording of the template rendering of one line (C3): a placeholder
line is substituted when the plan is non-empty and omitted when it is empty;
any other line passes through unchanged. -/
def specRenderLine (install_lines : List String) (line : String) : Option String :=
  if occursL installPlaceholder.data line.data then
    if install_lines.isEmpty then none
    else some (pyReplace line installPlaceholder
        (String.intercalate lineContinuationSep install_lines))
  else some line

theorem firstCharIs_ne (a : String) (c d : Char) (hcd : (c == d) = false)
    (h : firstCharIs a c = true) : firstCharIs a d = false := by
  obtain ⟨l⟩ := a
  cases l with
  | nil => simp [firstCharIs] at h
  | cons x rest =>
    simp only [firstCharIs] at h ⊢
    have hx : x = c := by simpa using h
    subst hx
    simpa using hcd

theorem classify_eq_amended (pn : Option String) (args : List String) :
    classifyNpxArgs pn args = amendedClassify pn args := by
  induction args generalizing pn with
  | nil => rfl
  | cons arg rest ih =>
    by_cases hy : (arg == "-y") = true
    · simp [classifyNpxArgs, amendedClassify, hy, ih]
    · by_cases hat : firstCharIs arg '@' = true
      · have hdash := firstCharIs_ne arg '@' '-' (by decide) hat
        simp [classifyNpxArgs, amendedClassify, hy, hat, hdash, ih]
      · by_cases hdash : firstCharIs arg '-' = true
        · simp [classifyNpxArgs, amendedClassify, hy, hat, hdash, ih]
        · by_cases hpn : pn.isNone
          · simp [classifyNpxArgs, amendedClassify, hy, hat, hdash, hpn, ih]
          · simp [classifyNpxArgs, amendedClassify, hy, hat, hdash, hpn, ih]

/-- Claim C1, amended: in the rewrite's argument classification, `-y` tokens
are discarded; every token beginning with `@` is taken as the package
identifier and discarded, a later namespace-prefixed token overwriting an
earlier claim; a token not beginning with `-` is taken and discarded only
while no identifier has been claimed yet; every other token is retained in
its original order; in particular `["-y", "@scope/pkg", "--flag", "value"]`
yields package identifier `@scope/pkg` and pass-through args
`["--flag", "value"]`. -/
theorem C1_classification_amended (pn : Option String) (args : List String) :
    classifyNpxArgs pn args = amendedClassify pn args
    ∧ classifyNpxArgs none ["-y", "@scope/pkg", "--flag", "value"]
        = (some "@scope/pkg", ["--flag", "value"]) :=
  ⟨classify_eq_amended pn args, by decide⟩

/-- Claim C1 counterexample: on args `["@a/x", "@b/y"]` the code claims and
discards BOTH namespace-prefixed tokens, returning the second one as the
package identifier with no pass-through args, while the claim states the
first one is taken and the second retained as a pass-through argument. -/
theorem C1_classification_counterexample :
    classifyNpxArgs none ["@a/x", "@b/y"] = (some "@b/y", [])
    ∧ claimClassify ["@a/x", "@b/y"] = (some "@a/x", ["@b/y"])
    ∧ classifyNpxArgs none ["@a/x", "@b/y"] ≠ claimClassify ["@a/x", "@b/y"] :=
  ⟨by decide, by decide, by decide⟩

theorem render_eq_filterMap (install_lines template : List String) :
    renderTemplate install_lines template
      = template.filterMap (specRenderLine install_lines) := by
  induction template with
  | nil => rfl
  | cons line rest ih =>
    by_cases hocc : occursL installPlaceholder.data line.data = true
    · by_cases hemp : install_lines.isEmpty = true
      · simp [renderTemplate, specRenderLine, List.filterMap_cons, hocc, hemp, ih]
      · simp [renderTemplate, specRenderLine, List.filterMap_cons, hocc, hemp, ih]
    · simp [renderTemplate, specRenderLine, List.filterMap_cons, hocc, ih]

theorem render_empty_length (template : List String) :
    (renderTemplate [] template).length
      = template.length
        - template.countP (fun line => occursL installPlaceholder.data line.data) := by
  induction template with
  | nil => rfl
  | cons line rest ih =>
    have hcnt := List.countP_le_length
      (p := fun line => occursL installPlaceholder.data line.data) (l := rest)
    by_cases hocc : occursL installPlaceholder.data line.data = true
    · simp [renderTemplate, hocc, List.countP_cons, ih]
    · simp [renderTemplate, hocc, List.countP_cons, ih]
      omega

/-- Claim C3: template rendering maps every line containing the placeholder
to the line with the placeholder substituted by the plan's commands joined
with the shell line continuation (plan order preserved) when the plan is
non-empty, omits the line entirely when the plan is empty (so the line count
drops by exactly one per placeholder line), and passes every other line
through unchanged in its original position. -/
theorem C3_template_rendering (install_lines template : List String) :
    renderTemplate install_lines template
      = template.filterMap (specRenderLine install_lines)
    ∧ (renderTemplate [] template).length
        = template.length
          - template.countP (fun line => occursL installPlaceholder.data line.data)
    ∧ renderTemplate ["&& npm install -g a", "&& npm install -g b"]
        [installPlaceholder]
        = ["&& npm install -g a \\\n&& npm install -g b"]
    ∧ renderTemplate [] ["FROM x", installPlaceholder, "CMD y"]
        = ["FROM x", "CMD y"] :=
  ⟨render_eq_filterMap install_lines template, render_empty_length template,
   by decide, by decide⟩

theorem getKey_setKey_ne (kvs : List (String × Json)) (k k' : String) (v : Json)
    (h : k' ≠ k) : getKey (setKey kvs k v) k' = getKey kvs k' := by
  induction kvs with
  | nil => simp [setKey, getKey, Ne.symm h]
  | cons hd rest ih =>
    obtain ⟨kk, vv⟩ := hd
    by_cases hk : (kk == k) = true
    · have : kk = k := by simpa using hk
      subst this
      simp [setKey, getKey, hk, Ne.symm h]
    · simp [setKey, getKey, hk, ih]

theorem convertServers_names (env : NpmEnv) (servers : List (String × Json))
    (out : List (String × Json)) (logs : List String)
    (h : convertServers env servers = .ok (out, logs)) :
    out.map Prod.fst = servers.map Prod.fst := by
  induction servers generalizing out logs with
  | nil =>
    simp [convertServers] at h
    simp [h.1]
  | cons hd rest ih =>
    obtain ⟨server_name, sj⟩ := hd
    cases sj with
    | obj sc =>
      simp only [convertServers] at h
      rcases hce : convertEntry env server_name sc with msg | ⟨e, elogs⟩
      · rw [hce] at h; simp at h
      · rw [hce] at h
        rcases hrest : convertServers env rest with msg | ⟨restOut, restLogs⟩
        · rw [hrest] at h; simp at h
        · rw [hrest] at h
          simp only [Except.ok.injEq, Prod.mk.injEq] at h
          obtain ⟨h1, _⟩ := h
          subst h1
          simp [ih restOut restLogs hrest]
    | null => simp [convertServers] at h
    | bool b => simp [convertServers] at h
    | num n => simp [convertServers] at h
    | str s => simp [convertServers] at h
    | arr xs => simp [convertServers] at h

/-- Claim C4: when the top-level key `mcpServers` is absent, the rewrite
returns the input document unchanged (with no diagnostics and no failure) and
package extraction returns the empty package set for all three ecosystems. -/
theorem C4_absent_mcpServers (env : NpmEnv) (config : List (String × Json))
    (h : getKey config "mcpServers" = none) :
    convert_npx_to_binary env config = .ok (config, [])
    ∧ extract_packages_from_config config = .ok (emptyPackages, []) := by
  constructor
  · unfold convert_npx_to_binary
    rw [h]
  · unfold extract_packages_from_config
    rw [h]

theorem C4_absent_mcpServers_witness :
    convert_npx_to_binary (NpmEnv.mk none (fun _ => false) (fun _ => none))
        [("other", Json.num 1)]
      = .ok ([("other", Json.num 1)], [])
    ∧ extract_packages_from_config [("other", Json.num 1)]
      = .ok (emptyPackages, []) :=
  C4_absent_mcpServers (NpmEnv.mk none (fun _ => false) (fun _ => none))
    [("other", Json.num 1)] rfl

/-- Claim C10: when `mcpServers` is present, the rewrite output document has
exactly the single top-level key `mcpServers` (every other top-level key of
the input is dropped); when it is absent, the whole document is returned
unchanged, so extra top-level keys survive only in that case. -/
theorem C10_top_level_keys (env env2 : NpmEnv)
    (config config2 out : List (String × Json)) (logs : List String) (v : Json)
    (h : getKey config "mcpServers" = some v)
    (hc : convert_npx_to_binary env config = .ok (out, logs))
    (h2 : getKey config2 "mcpServers" = none) :
    out.map Prod.fst = ["mcpServers"]
    ∧ convert_npx_to_binary env2 config2 = .ok (config2, []) := by
  constructor
  · unfold convert_npx_to_binary at hc
    rw [h] at hc
    cases v with
    | obj servers =>
      dsimp only at hc
      rcases hcs : convertServers env servers with msg | ⟨o, l⟩
      · rw [hcs] at hc; simp at hc
      · rw [hcs] at hc
        simp only [Except.ok.injEq, Prod.mk.injEq] at hc
        rw [← hc.1]
        rfl
    | null => simp at hc
    | bool b => simp at hc
    | num n => simp at hc
    | str s => simp at hc
    | arr xs => simp at hc
  · unfold convert_npx_to_binary
    rw [h2]

theorem C10_top_level_keys_witness :
    ([("mcpServers", Json.obj [])] : List (String × Json)).map Prod.fst
        = ["mcpServers"]
    ∧ convert_npx_to_binary (NpmEnv.mk none (fun _ => false) (fun _ => none))
        [("keep", Json.bool true)]
      = .ok ([("keep", Json.bool true)], []) :=
  C10_top_level_keys (NpmEnv.mk none (fun _ => false) (fun _ => none))
    (NpmEnv.mk none (fun _ => false) (fun _ => none))
    [("mcpServers", Json.obj []), ("extra", Json.null)]
    [("keep", Json.bool true)] [("mcpServers", Json.obj [])] []
    (Json.obj []) rfl rfl rfl

theorem asStrings_map_str (l : List String) : asStrings (l.map Json.str) = .ok l := by
  induction l with
  | nil => rfl
  | cons a rest ih => simp [asStrings, ih]

theorem convertEntry_shape (env : NpmEnv) (server_name : String)
    (sc e : List (String × Json)) (logs : List String)
    (h : convertEntry env server_name sc = .ok (e, logs)) :
    e = sc
    ∨ ∃ b r, e = setKey (setKey sc "command" (Json.str b)) "args" (Json.arr r) := by
  simp only [convertEntry] at h
  split at h
  · split at h
    · exact absurd h (by simp)
    · split at h
      · split at h
        · left
          simp only [Except.ok.injEq, Prod.mk.injEq] at h
          exact h.1.symm
        · split at h
          · right
            simp only [Except.ok.injEq, Prod.mk.injEq] at h
            exact ⟨_, _, h.1.symm⟩
          · left
            simp only [Except.ok.injEq, Prod.mk.injEq] at h
            exact h.1.symm
      · left
        simp only [Except.ok.injEq, Prod.mk.injEq] at h
        exact h.1.symm
  · left
    simp only [Except.ok.injEq, Prod.mk.injEq] at h
    exact h.1.symm

/-- Claim C9: a successfully rewritten entry keeps every field other than
`command` and `args` unchanged (the rewrite copies the entry and overwrites
only those two fields); when binary resolution fails, the whole entry —
`command` and `args` included — is preserved. -/
theorem C9_frame_preservation (env : NpmEnv) (server_name : String)
    (sc e : List (String × Json)) (logs : List String) (k : String)
    (hk1 : k ≠ "command") (hk2 : k ≠ "args")
    (h : convertEntry env server_name sc = .ok (e, logs)) :
    getKey e k = getKey sc k
    ∧ (∀ args pkg rem,
        getKey sc "args" = some (Json.arr (args.map Json.str)) →
        classifyNpxArgs none args = (some pkg, rem) →
        (find_binary_for_package env pkg).1 = none → e = sc) := by
  constructor
  · rcases convertEntry_shape env server_name sc e logs h with h1 | ⟨b, r, h1⟩
    · rw [h1]
    · rw [h1, getKey_setKey_ne _ _ _ _ hk2, getKey_setKey_ne _ _ _ _ hk1]
  · intro args pkg rem hargs hcl hfail
    simp only [convertEntry, hargs, Option.getD_some] at h
    split at h
    · rw [argStrings, asStrings_map_str] at h
      dsimp only at h
      rw [hcl] at h
      dsimp only at h
      by_cases hpkg : (pkg == "") = true
      · rw [if_pos hpkg] at h
        simp only [Except.ok.injEq, Prod.mk.injEq] at h
        exact h.1.symm
      · rw [if_neg hpkg] at h
        rcases hfind : find_binary_for_package env pkg with ⟨b, flogs⟩
        rw [hfind] at hfail
        simp at hfail
        subst hfail
        rw [hfind] at h
        dsimp only at h
        simp only [Except.ok.injEq, Prod.mk.injEq] at h
        exact h.1.symm
    · simp only [Except.ok.injEq, Prod.mk.injEq] at h
      exact h.1.symm

/-- Successful concrete environment used by several witnesses: a root query
returning `/r`, every path present, and a manifest whose `bin` field maps
`tool` to a path. -/
def envOk : NpmEnv :=
  NpmEnv.mk (some "/r") (fun _ => true)
    (fun _ => some (Json.obj [("bin", Json.obj [("tool", Json.str "x.js")])]))

/-- Failing concrete environment: the root query itself raises. -/
def envFail : NpmEnv :=
  NpmEnv.mk none (fun _ => false) (fun _ => none)

theorem C9_frame_preservation_witness :
    getKey [("command", Json.str "tool"), ("args", Json.arr []),
            ("env", Json.obj [("K", Json.str "v")])] "env"
      = getKey [("command", Json.str "npx"),
                ("args", Json.arr [Json.str "-y", Json.str "pkg"]),
                ("env", Json.obj [("K", Json.str "v")])] "env" :=
  (C9_frame_preservation envOk "s"
    [("command", Json.str "npx"),
     ("args", Json.arr [Json.str "-y", Json.str "pkg"]),
     ("env", Json.obj [("K", Json.str "v")])]
    [("command", Json.str "tool"), ("args", Json.arr []),
     ("env", Json.obj [("K", Json.str "v")])]
    ["Converted s: npx pkg -> tool"] "env"
    (by decide) (by decide) rfl).1

/-- Claim C8 counterexample: `python` is not a recognized dispatch token
(the dispatch tokens are the npm-style runner `npx` and the uv-style runner
`uvx`), yet a `python -m mypkg` entry is NOT excluded from the package set:
extraction adds `mypkg` to the pip ecosystem. -/
theorem C8_non_dispatch_counterexample :
    extractEntry "srv"
        [("command", Json.str "python"),
         ("args", Json.arr [Json.str "-m", Json.str "mypkg"])] emptyPackages
      = .ok (Packages.mk [] ["mypkg"] [],
             ["Found pip package for srv: mypkg"])
    ∧ ("python" == "npx") = false ∧ ("python" == "uvx") = false :=
  ⟨rfl, by decide, by decide⟩

/-- Claim C8, amended: an entry whose command is not `npx` is left
byte-identical by the rewrite; it is excluded from the package set when its
command is additionally neither `uvx` nor `python`; and rewriting an
already-resolved entry whose resolved command differs from `npx` is a no-op,
because such an entry no longer matches the `npx` precondition. -/
theorem C8_non_dispatch_amended (env env2 : NpmEnv)
    (server_name server_name2 : String) (sc e : List (String × Json))
    (p : Packages) :
    (isStrEq ((getKey sc "command").getD (Json.str "")) "npx" = false →
      convertEntry env server_name sc = .ok (sc, []))
    ∧ (isStrEq ((getKey sc "command").getD (Json.str "")) "npx" = false →
       isStrEq ((getKey sc "command").getD (Json.str "")) "uvx" = false →
       isStrEq ((getKey sc "command").getD (Json.str "")) "python" = false →
       extractEntry server_name sc p
         = .ok (p, ["Skipping direct command for " ++ server_name]))
    ∧ (∀ logs b, convertEntry env server_name sc = .ok (e, logs) →
        getKey e "command" = some (Json.str b) → (b == "npx") = false →
        convertEntry env2 server_name2 e = .ok (e, [])) := by
  refine ⟨fun h => ?_, fun h1 h2 h3 => ?_, fun logs b _ hcmd hb => ?_⟩
  · simp [convertEntry, h]
  · simp [extractEntry, h1, h2, h3]
  · have he : isStrEq ((getKey e "command").getD (Json.str "")) "npx" = false := by
      rw [hcmd]
      simp [isStrEq, hb]
    simp [convertEntry, he]

theorem C8_non_dispatch_amended_witness :
    convertEntry envFail "s" [("command", Json.str "custom-binary")]
      = .ok ([("command", Json.str "custom-binary")], [])
    ∧ extractEntry "s" [("command", Json.str "custom-binary")] emptyPackages
      = .ok (emptyPackages, ["Skipping direct command for s"])
    ∧ convertEntry envOk "s2" [("command", Json.str "custom-binary")]
      = .ok ([("command", Json.str "custom-binary")], []) := by
  have h := C8_non_dispatch_amended envFail envOk "s" "s2"
    [("command", Json.str "custom-binary")]
    [("command", Json.str "custom-binary")] emptyPackages
  exact ⟨h.1 (by decide), h.2.1 (by decide) (by decide) (by decide),
         h.2.2 [] "custom-binary" (h.1 (by decide)) rfl (by decide)⟩

theorem npx_eq_enumFrom (args : List String) (i : Nat) :
    npxPackageName i args
      = ((List.enumFrom i args).find?
          (fun p => firstCharIs p.2 '@'
            || (!firstCharIs p.2 '-' && decide (0 < p.1)))).map Prod.snd := by
  induction args generalizing i with
  | nil => rfl
  | cons arg rest ih =>
    by_cases hat : firstCharIs arg '@' = true
    · have hdash := firstCharIs_ne arg '@' '-' (by decide) hat
      simp [npxPackageName, List.enumFrom, List.find?, hat, hdash, ih]
    · by_cases hdash : firstCharIs arg '-' = true
      · simp [npxPackageName, List.enumFrom, List.find?, hat, hdash, ih]
      · by_cases hi : 0 < i
        · simp [npxPackageName, List.enumFrom, List.find?, hat, hdash, hi, ih]
        · simp [npxPackageName, List.enumFrom, List.find?, hat, hdash, hi, ih]

theorem uvx_eq_find (args : List String) (i : Nat) :
    uvxPackageName i args = args.find? (fun a => !firstCharIs a '-') := by
  induction args generalizing i with
  | nil => rfl
  | cons arg rest ih =>
    by_cases hdash : firstCharIs arg '-' = true
    · simp [uvxPackageName, List.find?, hdash, ih]
    · simp [uvxPackageName, List.find?, hdash, ih]

theorem python_eq_spec (args : List String) :
    pythonPackageName args = specPipPackage args := by
  cases args with
  | nil => rfl
  | cons a rest =>
    cases rest with
    | nil => simp [pythonPackageName, specPipPackage]
    | cons b rest2 =>
      by_cases ha : (a == "-m") = true
      · simp [pythonPackageName, specPipPackage, ha, List.getD]
      · simp [pythonPackageName, specPipPackage, ha, List.getD]

/-- Claim C6: the package-extraction rules are exactly: npm-style runner —
the first argument that is namespace-prefixed, or a non-flag argument at a
position other than the very first index (ecosystem npm); uv-style runner —
the first non-flag argument at any position (ecosystem uv); Python module
convention — the second argument when the first is `-m` and a second follows
(ecosystem pip); and every other command contributes no package. -/
theorem C6_extraction_rules (args : List String) (server_name : String)
    (sc : List (String × Json)) (p : Packages)
    (h1 : isStrEq ((getKey sc "command").getD (Json.str "")) "npx" = false)
    (h2 : isStrEq ((getKey sc "command").getD (Json.str "")) "uvx" = false)
    (h3 : isStrEq ((getKey sc "command").getD (Json.str "")) "python" = false) :
    npxPackageName 0 args = specNpmPackage args
    ∧ uvxPackageName 0 args = specUvPackage args
    ∧ pythonPackageName args = specPipPackage args
    ∧ extractEntry server_name sc p
      = .ok (p, ["Skipping direct command for " ++ server_name]) := by
  refine ⟨?_, uvx_eq_find args 0, python_eq_spec args,
          by simp [extractEntry, h1, h2, h3]⟩
  rw [npx_eq_enumFrom args 0]
  rfl

theorem C6_extraction_rules_witness :
    npxPackageName 0 ["-y", "@s/p"] = specNpmPackage ["-y", "@s/p"]
    ∧ uvxPackageName 0 ["-q", "tool"] = specUvPackage ["-q", "tool"]
    ∧ pythonPackageName ["-m", "mypkg"] = specPipPackage ["-m", "mypkg"]
    ∧ extractEntry "s" [("command", Json.str "node")] emptyPackages
      = .ok (emptyPackages, ["Skipping direct command for s"]) := by
  have h := C6_extraction_rules ["-y", "@s/p"] "s"
    [("command", Json.str "node")] emptyPackages
    (by decide) (by decide) (by decide)
  exact ⟨h.1, uvx_eq_find ["-q", "tool"] 0,
         python_eq_spec ["-m", "mypkg"], h.2.2.2⟩

theorem slash_not_mem_lastSegChars (cs : List Char) (acc : List Char)
    (hacc : '/' ∉ acc) : '/' ∉ lastSegChars acc cs := by
  induction cs generalizing acc with
  | nil => simpa [lastSegChars] using hacc
  | cons c rest ih =>
    by_cases hc : (c == '/') = true
    · simp only [lastSegChars, hc, if_true]
      exact ih [] (by simp)
    · simp only [lastSegChars, hc, if_false, Bool.false_eq_true]
      refine ih (acc ++ [c]) ?_
      simp only [List.mem_append, List.mem_singleton]
      rintro (h | h)
      · exact hacc h
      · exact absurd h.symm (by simpa using hc)

theorem lastSegChars_no_slash (cs acc : List Char) (hcs : '/' ∉ cs) :
    lastSegChars acc cs = acc ++ cs := by
  induction cs generalizing acc with
  | nil => simp [lastSegChars]
  | cons c rest ih =>
    have hc : (c == '/') = false := by
      have h1 : '/' ≠ c := by
        intro h
        exact hcs (by rw [h]; exact List.mem_cons_self c rest)
      simpa [beq_eq_false_iff_ne] using Ne.symm h1
    simp only [List.mem_cons, not_or] at hcs
    simp [lastSegChars, hc, ih (acc ++ [c]) hcs.2]

theorem lastSeg_lastSeg (s : String) : lastSeg (lastSeg s) = lastSeg s := by
  have h := slash_not_mem_lastSegChars s.data [] (by simp)
  show String.mk (lastSegChars [] (String.mk (lastSegChars [] s.data)).data)
    = String.mk (lastSegChars [] s.data)
  rw [show (String.mk (lastSegChars [] s.data)).data
        = lastSegChars [] s.data from rfl,
      lastSegChars_no_slash _ _ h]
  rfl

/-- Claim C7: with a successfully read manifest object, binary discovery
returns the last path segment of the package identifier (with a leading
namespace segment stripped when the identifier is scoped — which the last
segment already lacks) when the `bin` declaration is a single path string;
the first declared key in insertion order when it is a non-empty mapping; and
not-found when the declaration is absent or an empty mapping. -/
theorem C7_binary_discovery (env : NpmEnv) (package_name r s bk : String)
    (kvs btl : List (String × Json)) (bv : Json)
    (hr : env.npmRoot = some r)
    (hd : env.pathExists (joinPath (pyStrip r) package_name) = true)
    (hm : env.pathExists
        (joinPath (joinPath (pyStrip r) package_name) "package.json") = true)
    (hj : env.readJson
        (joinPath (joinPath (pyStrip r) package_name) "package.json")
      = some (Json.obj kvs)) :
    (getKey kvs "bin" = some (Json.str s) →
      find_binary_for_package env package_name
        = (some (lastSeg package_name), []))
    ∧ (getKey kvs "bin" = some (Json.obj ((bk, bv) :: btl)) →
      find_binary_for_package env package_name = (some bk, []))
    ∧ ((getKey kvs "bin" = none ∨ getKey kvs "bin" = some (Json.obj [])) →
      (find_binary_for_package env package_name).1 = none) := by
  obtain ⟨root, pe, rj⟩ := env
  simp only at hr hd hm hj
  subst hr
  refine ⟨fun hbin => ?_, fun hbin => ?_, fun hbin => ?_⟩
  · simp only [find_binary_for_package, hd, hm, hj, hbin, Option.getD_some,
      Bool.not_true, Bool.false_eq_true, if_false]
    rw [lastSeg_lastSeg]
    simp
  · simp [find_binary_for_package, hd, hm, hj, hbin]
  · rcases hbin with hbin | hbin
    · simp [find_binary_for_package, hd, hm, hj, hbin]
    · simp [find_binary_for_package, hd, hm, hj, hbin]

/-- Environment whose manifest declares a single binary path string. -/
def envStrBin : NpmEnv :=
  NpmEnv.mk (some "/r") (fun _ => true)
    (fun _ => some (Json.obj [("bin", Json.str "./cli.js")]))

/-- Environment whose manifest has no binary declaration at all. -/
def envNoBin : NpmEnv :=
  NpmEnv.mk (some "/r") (fun _ => true) (fun _ => some (Json.obj []))

theorem C7_binary_discovery_witness :
    find_binary_for_package envStrBin "@scope/pkg" = (some "pkg", [])
    ∧ find_binary_for_package envOk "pkg" = (some "tool", [])
    ∧ (find_binary_for_package envNoBin "pkg").1 = none :=
  ⟨(C7_binary_discovery envStrBin "@scope/pkg" "/r" "./cli.js" "tool"
      [("bin", Json.str "./cli.js")] [] Json.null rfl rfl rfl rfl).1 rfl,
   (C7_binary_discovery envOk "pkg" "/r" "" "tool"
      [("bin", Json.obj [("tool", Json.str "x.js")])] [] (Json.str "x.js")
      rfl rfl rfl rfl).2.1 rfl,
   (C7_binary_discovery envNoBin "pkg" "/r" "" "" [] [] Json.null
      rfl rfl rfl rfl).2.2 (Or.inl rfl)⟩

/-- Claim C2: every failure mode of dynamic binary resolution — root-query
failure, missing install directory, missing manifest, and a missing or empty
binary declaration — makes resolution return not-found with a diagnostic;
an npx entry that claims a truthy (non-empty) package identifier whose
resolution returns not-found is kept with its original command and args and
a warning diagnostic; and the loop over the server
table still processes every entry (the output names are exactly the input
names), so a failure never aborts the run. -/
theorem C2_resolution_failure (env1 env2 env3 env4 env : NpmEnv)
    (package_name server_name r2 r3 r4 : String)
    (kvs4 sc servers out : List (String × Json))
    (args remaining : List String) (logs : List String)
    (h1 : env1.npmRoot = none)
    (h2r : env2.npmRoot = some r2)
    (h2d : env2.pathExists (joinPath (pyStrip r2) package_name) = false)
    (h3r : env3.npmRoot = some r3)
    (h3d : env3.pathExists (joinPath (pyStrip r3) package_name) = true)
    (h3m : env3.pathExists
        (joinPath (joinPath (pyStrip r3) package_name) "package.json") = false)
    (h4r : env4.npmRoot = some r4)
    (h4d : env4.pathExists (joinPath (pyStrip r4) package_name) = true)
    (h4m : env4.pathExists
        (joinPath (joinPath (pyStrip r4) package_name) "package.json") = true)
    (h4j : env4.readJson
        (joinPath (joinPath (pyStrip r4) package_name) "package.json")
      = some (Json.obj kvs4))
    (h4b : getKey kvs4 "bin" = none ∨ getKey kvs4 "bin" = some (Json.obj []))
    (hfail : (find_binary_for_package env package_name).1 = none)
    (hcmd : isStrEq ((getKey sc "command").getD (Json.str "")) "npx" = true)
    (hargs : getKey sc "args" = some (Json.arr (args.map Json.str)))
    (hne : args.isEmpty = false)
    (hcl : classifyNpxArgs none args = (some package_name, remaining))
    (hpn : (package_name == "") = false)
    (hserv : convertServers env servers = .ok (out, logs)) :
    ((find_binary_for_package env1 package_name).1 = none
      ∧ (find_binary_for_package env1 package_name).2 ≠ [])
    ∧ ((find_binary_for_package env2 package_name).1 = none
      ∧ (find_binary_for_package env2 package_name).2 ≠ [])
    ∧ ((find_binary_for_package env3 package_name).1 = none
      ∧ (find_binary_for_package env3 package_name).2 ≠ [])
    ∧ ((find_binary_for_package env4 package_name).1 = none
      ∧ (find_binary_for_package env4 package_name).2 ≠ [])
    ∧ convertEntry env server_name sc
      = .ok (sc, (find_binary_for_package env package_name).2
          ++ ["Warning: Could not find binary for " ++ package_name ++
              ", keeping as npx"])
    ∧ out.map Prod.fst = servers.map Prod.fst := by
  refine ⟨?_, ?_, ?_, ?_, ?_, convertServers_names env servers out logs hserv⟩
  · obtain ⟨root, pe, rj⟩ := env1
    simp only at h1
    subst h1
    simp [find_binary_for_package]
  · obtain ⟨root, pe, rj⟩ := env2
    simp only at h2r h2d
    subst h2r
    simp [find_binary_for_package, h2d]
  · obtain ⟨root, pe, rj⟩ := env3
    simp only at h3r h3d h3m
    subst h3r
    simp [find_binary_for_package, h3d, h3m]
  · obtain ⟨root, pe, rj⟩ := env4
    simp only at h4r h4d h4m h4j
    subst h4r
    rcases h4b with h4b | h4b
    · simp [find_binary_for_package, h4d, h4m, h4j, h4b]
    · simp [find_binary_for_package, h4d, h4m, h4j, h4b]
  · have hne' : args ≠ [] := by
      intro h
      rw [h] at hne
      simp at hne
    have hguard : (isStrEq ((getKey sc "command").getD (Json.str "")) "npx"
        && jsonTruthy (Json.arr (args.map Json.str))) = true := by
      simp [jsonTruthy, hcmd, List.isEmpty_eq_true, List.map_eq_nil_iff, hne']
    simp only [convertEntry, hargs, Option.getD_some, hguard, if_true]
    rw [argStrings, asStrings_map_str]
    dsimp only
    rw [hcl]
    dsimp only
    rw [if_neg (by simp [hpn])]
    rcases hfind : find_binary_for_package env package_name with ⟨b, flogs⟩
    rw [hfind] at hfail
    simp at hfail
    subst hfail
    rfl

/-- Environment whose root query succeeds but no package directory exists. -/
def envNoDir : NpmEnv :=
  NpmEnv.mk (some "/r") (fun _ => false) (fun _ => none)

/-- Environment where the package directory exists but its manifest file
does not. -/
def envNoManifest : NpmEnv :=
  NpmEnv.mk (some "/r") (fun p => p == "/r/pkg") (fun _ => none)

theorem C2_resolution_failure_witness :
    (find_binary_for_package envFail "pkg").1 = none
    ∧ convertEntry envFail "a"
        [("command", Json.str "npx"),
         ("args", Json.arr [Json.str "-y", Json.str "pkg"])]
      = .ok ([("command", Json.str "npx"),
              ("args", Json.arr [Json.str "-y", Json.str "pkg"])],
             ["Error finding binary for pkg",
              "Warning: Could not find binary for pkg, keeping as npx"])
    ∧ ([("a", Json.obj [("command", Json.str "npx"),
            ("args", Json.arr [Json.str "-y", Json.str "pkg"])]),
        ("b", Json.obj [("command", Json.str "node")])]
         : List (String × Json)).map Prod.fst
      = ([("a", Json.obj [("command", Json.str "npx"),
              ("args", Json.arr [Json.str "-y", Json.str "pkg"])]),
          ("b", Json.obj [("command", Json.str "node")])]
           : List (String × Json)).map Prod.fst := by
  have h := C2_resolution_failure envFail envNoDir envNoManifest envNoBin
    envFail "pkg" "a" "/r" "/r" "/r" []
    [("command", Json.str "npx"),
     ("args", Json.arr [Json.str "-y", Json.str "pkg"])]
    [("a", Json.obj [("command", Json.str "npx"),
        ("args", Json.arr [Json.str "-y", Json.str "pkg"])]),
     ("b", Json.obj [("command", Json.str "node")])]
    [("a", Json.obj [("command", Json.str "npx"),
        ("args", Json.arr [Json.str "-y", Json.str "pkg"])]),
     ("b", Json.obj [("command", Json.str "node")])]
    ["-y", "pkg"] []
    ["Error finding binary for pkg",
     "Warning: Could not find binary for pkg, keeping as npx"]
    rfl rfl rfl rfl rfl rfl rfl rfl rfl rfl (Or.inl rfl) rfl rfl rfl rfl rfl
    rfl rfl
  exact ⟨h.1.1, h.2.2.2.2.1, h.2.2.2.2.2⟩

theorem charListLe_total (l m : List Char) :
    charListLe l m = true ∨ charListLe m l = true := by
  induction l generalizing m with
  | nil => left; rfl
  | cons a as ih =>
    cases m with
    | nil => right; rfl
    | cons b bs =>
      by_cases hab : (a == b) = true
      · have hba : (b == a) = true := by
          have : a = b := by simpa using hab
          simp [this]
        rcases ih bs with h | h
        · left; simp [charListLe, hab, h]
        · right; simp [charListLe, hba, h]
      · have hne : a ≠ b := by simpa using hab
        have hba : (b == a) = false := by
          simpa using Ne.symm hne
        rcases lt_or_gt_of_ne hne with h | h
        · left; simp [charListLe, hab, h]
        · right; simp [charListLe, hba, h]

theorem charListLe_trans (l m n : List Char) (h1 : charListLe l m = true)
    (h2 : charListLe m n = true) : charListLe l n = true := by
  induction l generalizing m n with
  | nil => rfl
  | cons a as ih =>
    cases m with
    | nil => simp [charListLe] at h1
    | cons b bs =>
      cases n with
      | nil => simp [charListLe] at h2
      | cons c cs =>
        by_cases hab : (a == b) = true
        · have hab' : a = b := by simpa using hab
          subst hab'
          by_cases hbc : (a == c) = true
          · simp only [charListLe, hab, if_true] at h1
            simp only [charListLe, hbc, if_true] at h2 ⊢
            exact ih bs cs h1 h2
          · simp only [charListLe, hbc, if_false, Bool.false_eq_true] at h2 ⊢
            simpa using h2
        · have hab' : a ≠ b := by simpa using hab
          simp only [charListLe, hab, if_false, Bool.false_eq_true] at h1
          have haltb : a < b := by simpa using h1
          by_cases hbc : (b == c) = true
          · have hbc' : b = c := by simpa using hbc
            subst hbc'
            simp only [charListLe, hab, if_false, Bool.false_eq_true]
            simpa using haltb
          · have hbc' : b ≠ c := by simpa using hbc
            simp only [charListLe, hbc, if_false, Bool.false_eq_true] at h2
            have hbltc : b < c := by simpa using h2
            have haltc : a < c := lt_trans haltb hbltc
            have hac : (a == c) = false := by
              simpa using ne_of_lt haltc
            simp [charListLe, hac, haltc]

theorem charListLe_antisymm (l m : List Char) (h1 : charListLe l m = true)
    (h2 : charListLe m l = true) : l = m := by
  induction l generalizing m with
  | nil =>
    cases m with
    | nil => rfl
    | cons b bs => simp [charListLe] at h2
  | cons a as ih =>
    cases m with
    | nil => simp [charListLe] at h1
    | cons b bs =>
      by_cases hab : (a == b) = true
      · have hab' : a = b := by simpa using hab
        subst hab'
        simp only [charListLe, hab, if_true] at h1 h2
        rw [ih bs h1 h2]
      · have hab' : a ≠ b := by simpa using hab
        have hba : (b == a) = false := by simpa using Ne.symm hab'
        simp only [charListLe, hab, if_false, Bool.false_eq_true] at h1
        simp only [charListLe, hba, if_false, Bool.false_eq_true] at h2
        have c1 : a < b := by simpa using h1
        have c2 : b < a := by simpa using h2
        exact absurd c2 (not_lt_of_gt c1)

instance : IsTotal String (fun a b => pyLe a b = true) :=
  ⟨fun a b => charListLe_total a.data b.data⟩

instance : IsTrans String (fun a b => pyLe a b = true) :=
  ⟨fun a b c => charListLe_trans a.data b.data c.data⟩

instance : IsAntisymm String (fun a b => pyLe a b = true) :=
  ⟨fun a b h1 h2 => by
    obtain ⟨la⟩ := a
    obtain ⟨lb⟩ := b
    exact congrArg String.mk (charListLe_antisymm la lb h1 h2)⟩

theorem sortedStrings_sorted (l : List String) :
    (sortedStrings l).Sorted (fun a b => pyLe a b = true) :=
  List.sorted_insertionSort _ l

theorem sortedStrings_perm (l : List String) : (sortedStrings l).Perm l :=
  List.perm_insertionSort _ l

theorem sortedStrings_congr (l m : List String) (h : l.Perm m) :
    sortedStrings l = sortedStrings m :=
  List.eq_of_perm_of_sorted
    (((sortedStrings_perm l).trans h).trans (sortedStrings_perm m).symm)
    (sortedStrings_sorted l) (sortedStrings_sorted m)

theorem if_isEmpty_map (l : List String) (f : String → String) :
    (if l.isEmpty then [] else (sortedStrings l).map f)
      = (sortedStrings l).map f := by
  cases l with
  | nil => rfl
  | cons a rest => rfl

theorem gen_no_guard (p : Packages) :
    generate_install_commands p
      = (sortedStrings p.npm).map
          (fun package => " && npm install -g " ++ package)
        ++ (sortedStrings p.pip).map
          (fun package =>
            " && pip3 install --no-cache-dir --break-system-packages "
              ++ package)
        ++ (sortedStrings p.uv).map
          (fun package => " && uv tool install " ++ package) := by
  unfold generate_install_commands
  rw [if_isEmpty_map, if_isEmpty_map, if_isEmpty_map]

theorem setAdd_nodup (s : List String) (x : String) (h : s.Nodup) :
    (setAdd s x).Nodup := by
  unfold setAdd
  split
  · exact h
  · rename_i hx
    have hx' : x ∉ s := by simpa using hx
    rw [List.nodup_append]
    exact ⟨h, List.nodup_singleton x,
           fun a ha => by
             simp only [List.mem_singleton]
             intro he
             exact hx' (he ▸ ha)⟩

theorem extractEntry_shape (server_name : String)
    (sc : List (String × Json)) (p p' : Packages) (logs : List String)
    (h : extractEntry server_name sc p = .ok (p', logs)) :
    p' = p
    ∨ (∃ x, p' = Packages.mk (setAdd p.npm x) p.pip p.uv)
    ∨ (∃ x, p' = Packages.mk p.npm (setAdd p.pip x) p.uv)
    ∨ (∃ x, p' = Packages.mk p.npm p.pip (setAdd p.uv x)) := by
  simp only [extractEntry] at h
  split at h
  · split at h
    · exact absurd h (by simp)
    · split at h
      · split at h
        · left
          simp only [Except.ok.injEq, Prod.mk.injEq] at h
          exact h.1.symm
        · right; left
          simp only [Except.ok.injEq, Prod.mk.injEq] at h
          exact ⟨_, h.1.symm⟩
      · left
        simp only [Except.ok.injEq, Prod.mk.injEq] at h
        exact h.1.symm
  · split at h
    · split at h
      · exact absurd h (by simp)
      · split at h
        · split at h
          · left
            simp only [Except.ok.injEq, Prod.mk.injEq] at h
            exact h.1.symm
          · right; right; right
            simp only [Except.ok.injEq, Prod.mk.injEq] at h
            exact ⟨_, h.1.symm⟩
        · left
          simp only [Except.ok.injEq, Prod.mk.injEq] at h
          exact h.1.symm
    · split at h
      · split at h
        · exact absurd h (by simp)
        · split at h
          · right; right; left
            simp only [Except.ok.injEq, Prod.mk.injEq] at h
            exact ⟨_, h.1.symm⟩
          · left
            simp only [Except.ok.injEq, Prod.mk.injEq] at h
            exact h.1.symm
      · left
        simp only [Except.ok.injEq, Prod.mk.injEq] at h
        exact h.1.symm

theorem extractEntry_nodup (server_name : String)
    (sc : List (String × Json)) (p p' : Packages) (logs : List String)
    (h : extractEntry server_name sc p = .ok (p', logs))
    (hn : p.npm.Nodup) (hp : p.pip.Nodup) (hu : p.uv.Nodup) :
    p'.npm.Nodup ∧ p'.pip.Nodup ∧ p'.uv.Nodup := by
  rcases extractEntry_shape server_name sc p p' logs h with
    h1 | ⟨x, h1⟩ | ⟨x, h1⟩ | ⟨x, h1⟩ <;> subst h1
  · exact ⟨hn, hp, hu⟩
  · exact ⟨setAdd_nodup _ _ hn, hp, hu⟩
  · exact ⟨hn, setAdd_nodup _ _ hp, hu⟩
  · exact ⟨hn, hp, setAdd_nodup _ _ hu⟩

theorem extractServers_nodup (servers : List (String × Json))
    (p pF : Packages) (logsF : List String)
    (h : extractServers servers p = .ok (pF, logsF))
    (hn : p.npm.Nodup) (hp : p.pip.Nodup) (hu : p.uv.Nodup) :
    pF.npm.Nodup ∧ pF.pip.Nodup ∧ pF.uv.Nodup := by
  induction servers generalizing p logsF with
  | nil =>
    simp only [extractServers, Except.ok.injEq, Prod.mk.injEq] at h
    rw [← h.1]
    exact ⟨hn, hp, hu⟩
  | cons hd rest ih =>
    obtain ⟨server_name, sj⟩ := hd
    cases sj with
    | obj sc =>
      simp only [extractServers] at h
      rcases hee : extractEntry server_name sc p with msg | ⟨p1, logs1⟩
      · rw [hee] at h; simp at h
      · rw [hee] at h
        dsimp only at h
        rcases hrest : extractServers rest p1 with msg | ⟨p2, logs2⟩
        · rw [hrest] at h; simp at h
        · rw [hrest] at h
          simp only [Except.ok.injEq, Prod.mk.injEq] at h
          obtain ⟨h1, _⟩ := h
          subst h1
          obtain ⟨hn1, hp1, hu1⟩ :=
            extractEntry_nodup server_name sc p p1 logs1 hee hn hp hu
          exact ih p1 logs2 hrest hn1 hp1 hu1
    | null => simp [extractServers] at h
    | bool b => simp [extractServers] at h
    | num n => simp [extractServers] at h
    | str s => simp [extractServers] at h
    | arr xs => simp [extractServers] at h

theorem extract_nodup (config : List (String × Json)) (pk : Packages)
    (logs : List String)
    (h : extract_packages_from_config config = .ok (pk, logs)) :
    pk.npm.Nodup ∧ pk.pip.Nodup ∧ pk.uv.Nodup := by
  unfold extract_packages_from_config at h
  rcases hk : getKey config "mcpServers" with _ | v
  · rw [hk] at h
    simp only [Except.ok.injEq, Prod.mk.injEq] at h
    rw [← h.1]
    exact ⟨List.nodup_nil, List.nodup_nil, List.nodup_nil⟩
  · rw [hk] at h
    cases v with
    | obj servers =>
      dsimp only at h
      exact extractServers_nodup servers emptyPackages pk logs h
        List.nodup_nil List.nodup_nil List.nodup_nil
    | null => simp at h
    | bool b => simp at h
    | num n => simp at h
    | str s => simp at h
    | arr xs => simp at h

/-- Claim C5: the install plan has exactly one install line per distinct
package (the extracted sets are duplicate-free per ecosystem), lines are
grouped by ecosystem in the fixed order npm, pip, uv, each group is sorted
lexicographically by package identifier, and the plan depends only on the
multiset of packages (permuting the sets does not change the output). -/
theorem C5_install_plan (p q pk : Packages) (config : List (String × Json))
    (logs : List String)
    (hn : p.npm.Perm q.npm) (hp : p.pip.Perm q.pip) (hu : p.uv.Perm q.uv)
    (hex : extract_packages_from_config config = .ok (pk, logs)) :
    generate_install_commands p = generate_install_commands q
    ∧ generate_install_commands p
        = (sortedStrings p.npm).map
            (fun package => " && npm install -g " ++ package)
          ++ (sortedStrings p.pip).map
            (fun package =>
              " && pip3 install --no-cache-dir --break-system-packages "
                ++ package)
          ++ (sortedStrings p.uv).map
            (fun package => " && uv tool install " ++ package)
    ∧ (sortedStrings p.npm).Sorted (fun a b => pyLe a b = true)
    ∧ (sortedStrings p.pip).Sorted (fun a b => pyLe a b = true)
    ∧ (sortedStrings p.uv).Sorted (fun a b => pyLe a b = true)
    ∧ (generate_install_commands p).length
        = p.npm.length + p.pip.length + p.uv.length
    ∧ pk.npm.Nodup ∧ pk.pip.Nodup ∧ pk.uv.Nodup := by
  obtain ⟨hkn, hkp, hku⟩ := extract_nodup config pk logs hex
  refine ⟨?_, gen_no_guard p, sortedStrings_sorted _, sortedStrings_sorted _,
          sortedStrings_sorted _, ?_, hkn, hkp, hku⟩
  · rw [gen_no_guard p, gen_no_guard q, sortedStrings_congr _ _ hn,
        sortedStrings_congr _ _ hp, sortedStrings_congr _ _ hu]
  · rw [gen_no_guard p]
    simp only [List.length_append, List.length_map]
    rw [(sortedStrings_perm p.npm).length_eq,
        (sortedStrings_perm p.pip).length_eq,
        (sortedStrings_perm p.uv).length_eq]

theorem C5_install_plan_witness :
    generate_install_commands (Packages.mk ["b", "a"] ["z"] [])
      = generate_install_commands (Packages.mk ["a", "b"] ["z"] [])
    ∧ (["@scope/pkg"] : List String).Nodup := by
  have h := C5_install_plan (Packages.mk ["b", "a"] ["z"] [])
    (Packages.mk ["a", "b"] ["z"] []) (Packages.mk ["@scope/pkg"] [] [])
    [("mcpServers", Json.obj
       [("s1", Json.obj [("command", Json.str "npx"),
           ("args", Json.arr [Json.str "-y", Json.str "@scope/pkg"])]),
        ("s2", Json.obj [("command", Json.str "npx"),
           ("args", Json.arr [Json.str "-y", Json.str "@scope/pkg"])])])]
    ["Found npm package for s1: @scope/pkg",
     "Found npm package for s2: @scope/pkg"]
    (by decide) (by decide) (by decide) rfl
  exact ⟨h.1, h.2.2.2.2.2.2.1⟩
